import Mathlib

/-!
Shallow embedding of the metronome audio engine implemented in
`src/windows/metronome.cpp`, together with theorems settling the frozen
claims about it.  Machine integers are modelled as `Nat`/`Int` (the C++
values in the claims' ranges never overflow), PCM samples as `Int`
(the signed 16-bit value), byte arrays as `List Nat`, and the engine's
shared mutable state as an explicit record that each member function maps
to a new record.  Fallible operations return the thrown message in an
`Option String` / `Except String` alongside the state at the throw point.
-/

namespace Metronome

/-- Reading a 16-bit little-endian bit pattern as a signed (two's
complement) sample value, as the x86 `memcpy` in
`Metronome::byteArrayToShortArray` does. -/
def toInt16 (n : Nat) : Int :=
  if n % 65536 < 32768 then ((n % 65536 : Nat) : Int)
  else ((n % 65536 : Nat) : Int) - 65536

/-- `Metronome::byteArrayToShortArray` (metronome.cpp lines 172-182):
throws for an empty or odd-length byte array, otherwise `memcpy`s the
bytes into a 16-bit sample array (little-endian), sample `i` being built
from bytes `2*i` and `2*i+1`. -/
def byteArrayToShortArray (byteArray : List Nat) : Except String (List Int) :=
  if byteArray = [] ∨ byteArray.length % 2 ≠ 0 then
    .error "Invalid byte array length for PCM_16BIT"
  else
    .ok ((List.range (byteArray.length / 2)).map fun i =>
      toInt16 (byteArray.getD (2 * i) 0 + 256 * byteArray.getD (2 * i + 1) 0))

/-- Little-endian serialization of 16-bit samples back to bytes; this is
the inverse direction used to state the spec's round-trip property for
the byte-to-short conversion. -/
def shortArrayToByteArray (samples : List Int) : List Nat :=
  (samples.map fun x => [(x % 65536).toNat % 256, (x % 65536).toNat / 256]).flatten

/-- The beat length computed in `Metronome::generateBuffer` (line 188):
`static_cast<int>(sampleRate * 60.0 / audioBpm)`, i.e. the quotient
truncated toward zero.  For the `int`-ranged inputs of the program the
double division never rounds across an integer, so this equals the
natural-number floor quotient. -/
def beatLengthSamples (sampleRate bpm : Nat) : Nat :=
  sampleRate * 60 / bpm

/-- Follows the spec's words (not the source): `round(sampleRate*60/bpm)`,
the real quotient rounded to the nearest integer (half rounds up).  Used
only to compare the spec's claimed formula with `beatLengthSamples`. -/
def roundNearestQuot (sampleRate bpm : Nat) : Nat :=
  (2 * (sampleRate * 60) + bpm) / (2 * bpm)

/-- One beat's slot of the bar buffer: a zero-filled region of
`beatLen` samples whose first `min beatLen sound.length` samples are
copied from `sound` (`std::copy_n` into the `resize`d, zero-filled
vector in `Metronome::generateBuffer`). -/
def beatSlot (beatLen : Nat) (sound : List Int) : List Int :=
  sound.take (min beatLen sound.length) ++
    List.replicate (beatLen - min beatLen sound.length) 0

/-- `Metronome::generateBuffer` (lines 184-210) as a function of the
parameters it reads: if the time signature is `< 2` a single slot built
from the main sound, otherwise `max 1 timeSignature` consecutive slots,
slot 0 from the accented sound and the rest from the main sound. -/
def generateBufferFn (sampleRate bpm : Nat) (timeSignature : Int)
    (mainSound accentedSound : List Int) : List Int :=
  let newBeatLength := beatLengthSamples sampleRate bpm
  if timeSignature < 2 then
    beatSlot newBeatLength mainSound
  else
    let beats := (max 1 timeSignature).toNat
    ((List.range beats).map fun i =>
      beatSlot newBeatLength (if i = 0 then accentedSound else mainSound)).flatten

/-- The engine's shared mutable state: all member variables of the
`Metronome` class that the claims refer to.  The opaque device handle is
represented only by the volume word last written to it, the producer
thread only by `playing` (the running flag) and `spawnCount` (how many
times a producer thread was spawned), and the tick sink by whether one is
registered. -/
structure MetroState where
  audioBpm : Nat
  audioTimeSignature : Int
  audioVolume : ℚ
  sampleRate : Nat
  mainSound : List Int
  accentedSound : List Int
  audioBuffer : List Int
  beatLength : Nat
  playing : Bool
  currentTick : Int
  writeCursor : Nat
  playCursor : Nat
  hasTickSink : Bool
  deviceVolume : Nat
  spawnCount : Nat
  deriving DecidableEq, Repr

deriving instance DecidableEq for Except

/-- The `DWORD` written by `waveOutSetVolume` in `Metronome::SetVolume`:
`vol = (DWORD)(0xFFFF * volume)` duplicated into both 16-bit channels via
`vol | (vol << 16)`. -/
def deviceVolumeWord (volume : ℚ) : Nat :=
  let vol := (Int.floor (65535 * volume)).toNat
  vol ||| (vol <<< 16)

/-- The state effect of running `Metronome::generateBuffer` (it stores the
new beat length in the `beatLength` member and the caller assigns the
returned vector to `audioBuffer`). -/
def regenerate (s : MetroState) : MetroState :=
  { s with
    audioBuffer := generateBufferFn s.sampleRate s.audioBpm s.audioTimeSignature
      s.mainSound s.accentedSound
    beatLength := beatLengthSamples s.sampleRate s.audioBpm }

/-- `Metronome::Play` (lines 35-46): `playing.exchange(true)` makes the
call a no-op while already playing; otherwise the bar buffer is rebuilt,
the device restarted and a producer thread spawned. -/
def play (s : MetroState) : MetroState :=
  if s.playing then s
  else regenerate { s with playing := true, spawnCount := s.spawnCount + 1 }

/-- `Metronome::Pause` (lines 48-65): a no-op while already stopped;
otherwise clears the running flag, zeroes `currentTick`, `writeCursor`
and `playCursor`, and joins the producer thread. -/
def pause (s : MetroState) : MetroState :=
  if s.playing then
    { s with playing := false, currentTick := 0, writeCursor := 0, playCursor := 0 }
  else s

/-- `Metronome::Stop` (lines 67-81): a no-op while already stopped;
otherwise clears the running flag, resets the device queue and joins the
producer thread.  It does not touch the cursors or the beat index. -/
def stop (s : MetroState) : MetroState :=
  if s.playing then { s with playing := false } else s

/-- `Metronome::SetBPM` (lines 82-98). -/
def setBPM (bpm : Nat) (s : MetroState) : MetroState :=
  if s.audioBpm = bpm then s
  else
    let wasPlaying := s.playing
    let s1 := if wasPlaying then pause s else s
    let s2 := { s1 with audioBpm := bpm }
    if wasPlaying then play s2 else s2

/-- `Metronome::SetTimeSignature` (lines 99-116). -/
def setTimeSignature (timeSignature : Int) (s : MetroState) : MetroState :=
  if s.audioTimeSignature = timeSignature then s
  else
    let wasPlaying := s.playing
    let s1 := if wasPlaying then pause s else s
    let s2 := { s1 with audioTimeSignature := timeSignature }
    if wasPlaying then play s2 else s2

/-- `Metronome::SetVolume` (lines 118-131): throws before any mutation if
the volume is outside `[0,1]`, otherwise stores it and writes the scaled
volume word to the device.  The second component is the thrown message. -/
def setVolume (volume : ℚ) (s : MetroState) : MetroState × Option String :=
  if volume < 0 ∨ 1 < volume then
    (s, some "Volume must be between 0.0 and 1.0")
  else
    ({ s with audioVolume := volume, deviceVolume := deviceVolumeWord volume }, none)

/-- `Metronome::SetAudioFile` (lines 133-159): a no-op when both byte
arrays are empty; otherwise pauses if playing, replaces whichever sounds
were provided (each conversion can throw, leaving the state as mutated so
far), and resumes if it had been playing. -/
def setAudioFile (mainFileBytes accentedFileBytes : List Nat)
    (s : MetroState) : MetroState × Option String :=
  if mainFileBytes = [] ∧ accentedFileBytes = [] then (s, none)
  else
    let wasPlaying := s.playing
    let s1 := if wasPlaying then pause s else s
    let step1 : Except String MetroState :=
      if mainFileBytes = [] then .ok s1
      else (byteArrayToShortArray mainFileBytes).map fun m => { s1 with mainSound := m }
    match step1 with
    | .error e => (s1, some e)
    | .ok s2 =>
      let step2 : Except String MetroState :=
        if accentedFileBytes = [] then .ok s2
        else (byteArrayToShortArray accentedFileBytes).map fun a =>
          { s2 with accentedSound := a }
      match step2 with
      | .error e => (s2, some e)
      | .ok s3 => (if wasPlaying then play s3 else s3, none)

/-- `Metronome::EnableTickCallback` (lines 168-171): registers (or, with a
null sink, unregisters) the tick sink. -/
def enableTickCallback (sink : Bool) (s : MetroState) : MetroState :=
  { s with hasTickSink := sink }

/-- `Metronome::OnBufferDone` (lines 257-277): advances the play cursor by
one beat length; then, only when a tick sink is registered, updates the
beat index (reset to 0 for a time signature `< 2`, otherwise incremented
and wrapped to 0 once it reaches the signature) and notifies the sink
with the updated index.  The second component is the notified index. -/
def onBufferDone (s : MetroState) : MetroState × Option Int :=
  let s1 := { s with playCursor := s.playCursor + s.beatLength }
  if s.hasTickSink then
    let t :=
      if s.audioTimeSignature < 2 then 0
      else if s.currentTick + 1 ≥ s.audioTimeSignature then 0
      else s.currentTick + 1
    ({ s1 with currentTick := t }, some t)
  else (s1, none)

/-- A fragment-completion callback delivered by the device
(`Metronome::WaveOutProc`, lines 234-255): frees the fragment and invokes
`OnBufferDone` only while the running flag is set. -/
def onFragmentDone (s : MetroState) : MetroState × Option Int :=
  if s.playing then onBufferDone s else (s, none)

/-- State part of a fragment completion. -/
def doneStep (s : MetroState) : MetroState :=
  (onFragmentDone s).1

/-- `k` successive fragment completions. -/
def doneIter : Nat → MetroState → MetroState
  | 0, s => s
  | k + 1, s => doneIter k (doneStep s)

/-- The fragment sliced by `Metronome::PlaySound` (lines 278-338): starting
at `writeCursor % audioBuffer.size()` it copies
`min beatLength (size - start)` samples and, if that is short of a full
beat, wraps around to the buffer's beginning for the remainder. -/
def sliceFragment (buf : List Int) (beatLen writeCursor : Nat) : List Int :=
  let startPos := writeCursor % buf.length
  let copySize := min beatLen (buf.length - startPos)
  (buf.drop startPos).take copySize ++ buf.take (beatLen - copySize)

/-- One iteration of the producer loop body (`Metronome::PlaySound`): while
playing it slices the next fragment, advances the write cursor by one beat
length and submits the fragment; otherwise it does nothing. -/
def producerStep (s : MetroState) : MetroState × Option (List Int) :=
  if s.playing then
    ({ s with writeCursor := s.writeCursor + s.beatLength },
      some (sliceFragment s.audioBuffer s.beatLength s.writeCursor))
  else (s, none)

/-- Modelled from the spec: the initial values of the members declared in
the header `metronome.h`, which is not under `src/` — the running flag
starts false, `WriteCursor`/`PlayCursor`/`CurrentBeatIndex` start at 0 and
no tick sink is registered at construction.  Everything else follows the
constructor in `metronome.cpp` (lines 13-28): it rejects empty main-sound
bytes, converts the byte arrays (the accent falling back to the main
sound when its bytes are empty), opens the device applying the initial
volume (which throws for a volume outside `[0,1]`), and builds the bar
buffer. -/
def initMetronome (mainFileBytes accentedFileBytes : List Nat) (bpm : Nat)
    (timeSignature : Int) (volume : ℚ) (sampleRate : Nat) :
    Except String MetroState :=
  if mainFileBytes = [] then .error "Main sound file cannot be empty"
  else
    match byteArrayToShortArray mainFileBytes with
    | .error e => .error e
    | .ok main =>
      match (if accentedFileBytes = [] then .ok main
             else byteArrayToShortArray accentedFileBytes : Except String (List Int)) with
      | .error e => .error e
      | .ok accent =>
        if volume < 0 ∨ 1 < volume then .error "Volume must be between 0.0 and 1.0"
        else
          .ok (regenerate
            { audioBpm := bpm
              audioTimeSignature := timeSignature
              audioVolume := volume
              sampleRate := sampleRate
              mainSound := main
              accentedSound := accent
              audioBuffer := []
              beatLength := 0
              playing := false
              currentTick := 0
              writeCursor := 0
              playCursor := 0
              hasTickSink := false
              deviceVolume := deviceVolumeWord volume
              spawnCount := 0 })

/-- A concrete constructed engine: main sound bytes `[1, 0]` (one sample of
value 1), no accent bytes, 60 bpm, 4/4 time, volume `1/2`, sample rate 2
(so one beat is 2 samples and the bar buffer is 8 samples). -/
def baseState : MetroState :=
  { audioBpm := 60
    audioTimeSignature := 4
    audioVolume := 1/2
    sampleRate := 2
    mainSound := [1]
    accentedSound := [1]
    audioBuffer := [1, 0, 1, 0, 1, 0, 1, 0]
    beatLength := 2
    playing := false
    currentTick := 0
    writeCursor := 0
    playCursor := 0
    hasTickSink := false
    deviceVolume := deviceVolumeWord (1/2)
    spawnCount := 0 }

/-- The beat-index invariant claimed by the spec: the stored index lies in
`[0, timeSignature)` when the signature is at least 2, and is 0 when the
signature is below 2. -/
def beatInv (s : MetroState) : Prop :=
  (2 ≤ s.audioTimeSignature →
    0 ≤ s.currentTick ∧ s.currentTick < s.audioTimeSignature) ∧
  (s.audioTimeSignature < 2 → s.currentTick = 0)

instance (s : MetroState) : Decidable (beatInv s) := by
  unfold beatInv; infer_instance

/-! ### List indexing helper lemmas -/

theorem getD_append_lt {α} (l l' : List α) (d : α) :
    ∀ n, n < l.length → (l ++ l').getD n d = l.getD n d := by
  induction l with
  | nil => intro n h; simp at h
  | cons a t ih =>
    intro n h
    cases n with
    | zero => simp
    | succ m =>
      simp only [List.cons_append, List.getD_cons_succ]
      exact ih m (by simpa using h)

theorem getD_append_add {α} (l l' : List α) (d : α) :
    ∀ k, (l ++ l').getD (l.length + k) d = l'.getD k d := by
  induction l with
  | nil => intro k; simp
  | cons a t ih =>
    intro k
    simp only [List.cons_append, List.length_cons]
    have : t.length + 1 + k = (t.length + k) + 1 := by omega
    rw [this, List.getD_cons_succ, ih]

theorem getD_take_lt {α} (l : List α) (d : α) :
    ∀ n j, j < n → (l.take n).getD j d = l.getD j d := by
  induction l with
  | nil => intro n j _; simp
  | cons a t ih =>
    intro n j hj
    cases n with
    | zero => omega
    | succ m =>
      cases j with
      | zero => simp
      | succ i => simpa using ih m i (by omega)

theorem getD_replicate_self {α} (d : α) : ∀ k j, (List.replicate k d).getD j d = d := by
  intro k
  induction k with
  | zero => intro j; simp
  | succ m ih =>
    intro j
    cases j with
    | zero => simp
    | succ i => simpa [List.replicate_succ] using ih i

theorem getD_map_lt {α β} (f : α → β) (d : β) (d' : α) :
    ∀ (l : List α) i, i < l.length → (l.map f).getD i d = f (l.getD i d') := by
  intro l
  induction l with
  | nil => intro i h; simp at h
  | cons a t ih =>
    intro i h
    cases i with
    | zero => simp
    | succ m => simpa using ih m (by simpa using h)

theorem getD_range (n : Nat) : ∀ i, i < n → (List.range n).getD i 0 = i := by
  induction n with
  | zero => intro i h; omega
  | succ m ih =>
    intro i h
    rw [List.range_succ]
    rcases Nat.lt_or_ge i m with hlt | hge
    · rw [getD_append_lt _ _ _ i (by simpa using hlt)]
      exact ih i hlt
    · have him : i = m := by omega
      subst him
      have hlen : (List.range i).length = i := by simp
      calc (List.range i ++ [i]).getD i 0
          = (List.range i ++ [i]).getD ((List.range i).length + 0) 0 := by simp [hlen]
        _ = ([i] : List Nat).getD 0 0 := getD_append_add _ _ _ 0
        _ = i := rfl

theorem getD_range_map {α} (f : Nat → α) (d : α) (n i : Nat) (h : i < n) :
    ((List.range n).map f).getD i d = f i := by
  rw [getD_map_lt f d 0 _ i (by simpa using h)]
  rw [getD_range n i h]

theorem getD_mem_of_lt {α} (l : List α) (d : α) :
    ∀ i, i < l.length → l.getD i d ∈ l := by
  induction l with
  | nil => intro i h; simp at h
  | cons a t ih =>
    intro i h
    cases i with
    | zero => simp
    | succ m =>
      rw [List.getD_cons_succ]
      exact List.mem_cons_of_mem a (ih m (by simpa using h))

theorem list_eq_of_getD {α} (d : α) :
    ∀ (l l' : List α), l.length = l'.length →
      (∀ i, i < l.length → l.getD i d = l'.getD i d) → l = l' := by
  intro l
  induction l with
  | nil =>
    intro l' hlen _
    cases l' with
    | nil => rfl
    | cons b t => simp at hlen
  | cons a t ih =>
    intro l' hlen hidx
    cases l' with
    | nil => simp at hlen
    | cons b t' =>
      have h0 := hidx 0 (by simp)
      simp only [List.getD_cons_zero] at h0
      subst h0
      have ht : t = t' := by
        refine ih t' (by simpa using hlen) ?_
        intro i hi
        simpa using hidx (i + 1) (by simpa using hi)
      rw [ht]

theorem flatten_const_length {α} (bl : Nat) :
    ∀ (ls : List (List α)), (∀ l ∈ ls, l.length = bl) →
      ls.flatten.length = ls.length * bl := by
  intro ls
  induction ls with
  | nil => intro _; simp
  | cons a t ih =>
    intro h
    have ha : a.length = bl := h a (by simp)
    have ht := ih fun l hl => h l (by simp [hl])
    simp only [List.flatten_cons, List.length_append, List.length_cons, ha, ht]
    ring

theorem flatten_const_getD {α} (bl : Nat) (d : α) :
    ∀ (ls : List (List α)), (∀ l ∈ ls, l.length = bl) →
      ∀ i j, i < ls.length → j < bl →
        ls.flatten.getD (i * bl + j) d = (ls.getD i []).getD j d := by
  intro ls
  induction ls with
  | nil => intro _ i j hi _; simp at hi
  | cons a t ih =>
    intro h i j hi hj
    have ha : a.length = bl := h a (by simp)
    cases i with
    | zero =>
      simp only [List.flatten_cons, Nat.zero_mul, Nat.zero_add, List.getD_cons_zero]
      exact getD_append_lt _ _ _ j (by omega)
    | succ m =>
      simp only [List.flatten_cons, List.getD_cons_succ]
      have hidx : (m + 1) * bl + j = a.length + (m * bl + j) := by
        rw [ha]; ring
      rw [hidx, getD_append_add]
      exact ih (fun l hl => h l (by simp [hl])) m j (by simpa using hi) hj

/-! ### Bar buffer builder facts -/

theorem beatSlot_length (beatLen : Nat) (sound : List Int) :
    (beatSlot beatLen sound).length = beatLen := by
  unfold beatSlot
  rw [List.length_append, List.length_take, List.length_replicate]
  omega

theorem beatSlot_getD (beatLen : Nat) (sound : List Int) (j : Nat) (hj : j < beatLen) :
    (beatSlot beatLen sound).getD j 0 =
      if j < sound.length then sound.getD j 0 else 0 := by
  unfold beatSlot
  by_cases h : j < sound.length
  · rw [if_pos h]
    have hlt : j < (sound.take (min beatLen sound.length)).length := by
      simp; omega
    rw [getD_append_lt _ _ _ j hlt]
    exact getD_take_lt sound 0 _ j (by omega)
  · rw [if_neg h]
    have hlen : (sound.take (min beatLen sound.length)).length = min beatLen sound.length := by
      simp
    have hidx : j = (sound.take (min beatLen sound.length)).length +
        (j - min beatLen sound.length) := by
      rw [hlen]; omega
    rw [hidx, getD_append_add]
    exact getD_replicate_self 0 _ _

/-! ### Claim C1 -/

/-- C1: for every `bpm > 0`, `beatsPerBar ≥ 2`, non-empty main and accent
waveforms and any sample rate, the built bar buffer has length
`beatLengthSamples * beatsPerBar`, and for each beat index
`i ∈ [0, beatsPerBar)` the slot `[i*beatLen, (i+1)*beatLen)` begins with
the first `min beatLen (source.length)` samples of the source (accent for
`i = 0`, main otherwise) and is zero afterwards, so no waveform bleeds
into the next slot. -/
theorem c1_bar_buffer_layout (sampleRate bpm : Nat) (timeSignature : Int)
    (mainSound accentedSound : List Int)
    (hbpm : 0 < bpm) (hts : 2 ≤ timeSignature)
    (hm : mainSound ≠ []) (ha : accentedSound ≠ []) :
    (generateBufferFn sampleRate bpm timeSignature mainSound accentedSound).length =
      beatLengthSamples sampleRate bpm * timeSignature.toNat ∧
    ∀ i, i < timeSignature.toNat → ∀ j, j < beatLengthSamples sampleRate bpm →
      (generateBufferFn sampleRate bpm timeSignature mainSound accentedSound).getD
          (i * beatLengthSamples sampleRate bpm + j) 0 =
        (if j < (if i = 0 then accentedSound else mainSound).length
         then (if i = 0 then accentedSound else mainSound).getD j 0 else 0) := by
  have hts2 : ¬ (timeSignature < 2) := not_lt.mpr hts
  have hmax : max 1 timeSignature = timeSignature := max_eq_right (by omega)
  have hbuf : generateBufferFn sampleRate bpm timeSignature mainSound accentedSound =
      ((List.range timeSignature.toNat).map fun i =>
        beatSlot (beatLengthSamples sampleRate bpm)
          (if i = 0 then accentedSound else mainSound)).flatten := by
    simp only [generateBufferFn, if_neg hts2, hmax]
  set bl := beatLengthSamples sampleRate bpm with hbl
  set ls := (List.range timeSignature.toNat).map fun i =>
    beatSlot bl (if i = 0 then accentedSound else mainSound) with hls
  have hall : ∀ l ∈ ls, l.length = bl := by
    intro l hl
    rw [hls] at hl
    simp only [List.mem_map] at hl
    obtain ⟨i, _, rfl⟩ := hl
    exact beatSlot_length _ _
  have hlsLen : ls.length = timeSignature.toNat := by
    rw [hls]; simp
  constructor
  · rw [hbuf, flatten_const_length bl ls hall, hlsLen, Nat.mul_comm]
  · intro i hi j hj
    rw [hbuf, flatten_const_getD bl 0 ls hall i j (by rw [hlsLen]; exact hi) hj]
    have hslot : ls.getD i [] =
        beatSlot bl (if i = 0 then accentedSound else mainSound) := by
      rw [hls]
      exact getD_range_map _ _ _ i hi
    rw [hslot, beatSlot_getD bl _ j hj]

/-- Witness for C1 at `sampleRate = 2`, `bpm = 60`, `timeSignature = 4`,
main sound `[1]`, accent sound `[2]` (beat length 2, bar `[2,0,1,0,1,0,1,0]`). -/
theorem c1_bar_buffer_layout_witness :
    (0 < 60 ∧ (2 : Int) ≤ 4 ∧ ([1] : List Int) ≠ [] ∧ ([2] : List Int) ≠ []) ∧
    ((generateBufferFn 2 60 4 [1] [2]).length = beatLengthSamples 2 60 * (4 : Int).toNat ∧
     ∀ i, i < (4 : Int).toNat → ∀ j, j < beatLengthSamples 2 60 →
       (generateBufferFn 2 60 4 [1] [2]).getD (i * beatLengthSamples 2 60 + j) 0 =
         (if j < (if i = 0 then ([2] : List Int) else [1]).length
          then (if i = 0 then ([2] : List Int) else [1]).getD j 0 else 0)) :=
  ⟨⟨by decide, by decide, by decide, by decide⟩,
   c1_bar_buffer_layout 2 60 4 [1] [2] (by decide) (by decide) (by decide) (by decide)⟩

/-! ### Claim C2 -/

/-- C2 counterexample: at `sampleRate = 44100`, `bpm = 130` the code's beat
length is the truncated quotient `20353`, while the real quotient
`2646000/130 = 20353.846…` rounds to the nearest integer `20354` (the
distance conjuncts certify which integer is nearest); so the claimed
`round` formula is wrong, and with time signature 0 the bar buffer length
is the truncated value as well. -/
theorem c2_round_counterexample :
    beatLengthSamples 44100 130 = 20353 ∧
    roundNearestQuot 44100 130 = 20354 ∧
    beatLengthSamples 44100 130 ≠ roundNearestQuot 44100 130 ∧
    (20354 * 130 - 2646000 : Int) = 20 ∧
    (2646000 - 20353 * 130 : Int) = 110 ∧
    (generateBufferFn 44100 130 0 [] []).length = 20353 := by
  refine ⟨by decide, by decide, by decide, by decide, by decide, ?_⟩
  have h0 : ((0 : Int) < 2) := by decide
  simp only [generateBufferFn, if_pos h0]
  rw [beatSlot_length]
  decide

/-- C2 as amended: the beat length computed when the bar buffer is rebuilt
is the quotient `sampleRate * 60 / bpm` truncated toward zero (the floor,
characterized by the two inequalities below), not rounded to nearest; for
a time signature below 2 (`beatsPerBar ∈ {0,1}`) the bar buffer length
equals exactly this truncated value. -/
theorem c2_truncated_beat_length (sampleRate bpm : Nat) (timeSignature : Int)
    (mainSound accentedSound : List Int) (hbpm : 0 < bpm)
    (hts : timeSignature < 2) :
    (generateBufferFn sampleRate bpm timeSignature mainSound accentedSound).length =
      beatLengthSamples sampleRate bpm ∧
    bpm * beatLengthSamples sampleRate bpm ≤ sampleRate * 60 ∧
    sampleRate * 60 < bpm * (beatLengthSamples sampleRate bpm + 1) := by
  refine ⟨?_, ?_, ?_⟩
  · simp only [generateBufferFn, if_pos hts]
    exact beatSlot_length _ _
  · unfold beatLengthSamples
    rw [Nat.mul_comm]
    exact Nat.div_mul_le_self (sampleRate * 60) bpm
  · unfold beatLengthSamples
    rw [Nat.mul_comm bpm (sampleRate * 60 / bpm + 1)]
    exact (Nat.div_lt_iff_lt_mul hbpm).mp (Nat.lt_succ_self (sampleRate * 60 / bpm))

/-- Witness for the amended C2 at `sampleRate = 44100`, `bpm = 130`,
`timeSignature = 0`. -/
theorem c2_truncated_beat_length_witness :
    (0 < 130 ∧ (0 : Int) < 2) ∧
    ((generateBufferFn 44100 130 0 [] []).length = beatLengthSamples 44100 130 ∧
     130 * beatLengthSamples 44100 130 ≤ 44100 * 60 ∧
     44100 * 60 < 130 * (beatLengthSamples 44100 130 + 1)) :=
  ⟨⟨by decide, by decide⟩,
   c2_truncated_beat_length 44100 130 0 [] [] (by decide) (by decide)⟩

/-! ### Claim C7 -/

/-- C7: `Play()` while already playing is a no-op — the state after two
consecutive `Play()` calls equals the state after one (running flag true,
same spawn count so no second producer thread, cursors and buffer
unchanged) — and `Stop()`/`Pause()` while already stopped leave the state
entirely unchanged. -/
theorem c7_idempotent_controls (s : MetroState) :
    play (play s) = play s ∧ (play s).playing = true ∧
    (s.playing = false → stop s = s ∧ pause s = s) := by
  refine ⟨?_, ?_, ?_⟩
  · by_cases h : s.playing
    · simp [play, h]
    · simp [play, h, regenerate]
  · by_cases h : s.playing
    · simpa [play, h] using h
    · simp [play, h, regenerate]
  · intro h
    constructor <;> simp [stop, pause, h]

/-- Witness for C7 at the concrete stopped engine `baseState`. -/
theorem c7_idempotent_controls_witness :
    baseState.playing = false ∧
    play (play baseState) = play baseState ∧
    stop baseState = baseState ∧
    pause baseState = baseState :=
  ⟨rfl, (c7_idempotent_controls baseState).1,
    ((c7_idempotent_controls baseState).2.2 rfl).1,
    ((c7_idempotent_controls baseState).2.2 rfl).2⟩

/-! ### Claim C8 -/

/-- C8: `SetVolume(v)` fails with the out-of-range error exactly when
`v < 0` or `v > 1` (so the boundary values 0 and 1 succeed), and on
success it stores the new volume, applies the scaled volume word to the
output device, and leaves the running flag (and everything else)
untouched. -/
theorem c8_set_volume_contract (v : ℚ) (s : MetroState) :
    ((setVolume v s).2.isSome ↔ (v < 0 ∨ 1 < v)) ∧
    (0 ≤ v → v ≤ 1 →
      setVolume v s =
        ({ s with audioVolume := v, deviceVolume := deviceVolumeWord v }, none) ∧
      (setVolume v s).1.playing = s.playing) := by
  constructor
  · by_cases h : v < 0 ∨ 1 < v
    · simp [setVolume, h]
    · simp [setVolume, h]
  · intro h0 h1
    have h : ¬ (v < 0 ∨ 1 < v) := by
      push_neg
      exact ⟨h0, h1⟩
    constructor
    · simp [setVolume, h]
    · simp [setVolume, h]

/-- Witness for C8: the boundary volumes 0 and 1 succeed on `baseState`,
volume 1 is stored without stopping playback, and `-1/10` and `3/2` fail. -/
theorem c8_set_volume_contract_witness :
    (setVolume 0 baseState).2 = none ∧
    (setVolume 1 baseState).2 = none ∧
    (setVolume 1 baseState).1.audioVolume = 1 ∧
    (setVolume 1 baseState).1.playing = baseState.playing ∧
    (setVolume (-1/10) baseState).2.isSome = true ∧
    (setVolume (3/2) baseState).2.isSome = true := by
  have h0 := (c8_set_volume_contract 0 baseState).2 (by norm_num) (by norm_num)
  have h1 := (c8_set_volume_contract 1 baseState).2 (by norm_num) (by norm_num)
  have hn := (c8_set_volume_contract (-1/10) baseState).1
  have hp := (c8_set_volume_contract (3/2) baseState).1
  refine ⟨by rw [h0.1], by rw [h1.1], by rw [h1.1], h1.2, ?_, ?_⟩
  · exact hn.mpr (by norm_num)
  · exact hp.mpr (by norm_num)

/-! ### Claim C10 -/

/-- C10: when `SetVolume(v)` fails because `v` is outside `[0,1]`, it
throws before any mutation — the returned state is exactly the input
state, so the stored volume field and the device volume word are what
they were before the call. -/
theorem c10_set_volume_atomic_failure (v : ℚ) (s : MetroState)
    (h : v < 0 ∨ 1 < v) :
    setVolume v s = (s, some "Volume must be between 0.0 and 1.0") := by
  simp [setVolume, h]

/-- Witness for C10 at `v = 3/2` on `baseState`. -/
theorem c10_set_volume_atomic_failure_witness :
    ((3/2 : ℚ) < 0 ∨ 1 < (3/2 : ℚ)) ∧
    setVolume (3/2) baseState =
      (baseState, some "Volume must be between 0.0 and 1.0") :=
  ⟨by norm_num, c10_set_volume_atomic_failure (3/2) baseState (by norm_num)⟩

/-! ### Completion-handler step lemmas -/

theorem doneStep_of_playing_sink (s : MetroState) (hp : s.playing = true)
    (hs : s.hasTickSink = true) :
    doneStep s = { s with
      playCursor := s.playCursor + s.beatLength
      currentTick :=
        if s.audioTimeSignature < 2 then 0
        else if s.currentTick + 1 ≥ s.audioTimeSignature then 0
        else s.currentTick + 1 } := by
  simp [doneStep, onFragmentDone, onBufferDone, hp, hs]

theorem doneStep_of_playing_nosink (s : MetroState) (hp : s.playing = true)
    (hs : s.hasTickSink = false) :
    doneStep s = { s with playCursor := s.playCursor + s.beatLength } := by
  simp [doneStep, onFragmentDone, onBufferDone, hp, hs]

theorem onFragmentDone_snd_sink (s : MetroState) (hp : s.playing = true)
    (hs : s.hasTickSink = true) :
    (onFragmentDone s).2 = some
      (if s.audioTimeSignature < 2 then 0
       else if s.currentTick + 1 ≥ s.audioTimeSignature then 0
       else s.currentTick + 1) := by
  simp [onFragmentDone, onBufferDone, hp, hs]

/-! ### Claim C3 -/

/-- C3 as amended: on every fragment completion while playing the
Completion Handler always adds `beatLength` to the play cursor, but the
beat-index update (and the notification) happen only when a tick sink is
registered: with no sink `CurrentBeatIndex` is left unchanged, with a sink
it becomes 0 for a signature `< 2` and otherwise advances to
`(CurrentBeatIndex + 1) mod beatsPerBar` (for an in-range index).  The
claimed example still holds: from a freshly started state with
`beatLength = 22050` (bpm 120, sample rate 44100) and signature 4, after
4 completions the beat index has returned to 0 and the play cursor is
88200. -/
theorem c3_completion_handler (s : MetroState) :
    (s.playing = true →
      (doneStep s).playCursor = s.playCursor + s.beatLength) ∧
    (s.playing = true → s.hasTickSink = false →
      (doneStep s).currentTick = s.currentTick) ∧
    (s.playing = true → s.hasTickSink = true → s.audioTimeSignature < 2 →
      (doneStep s).currentTick = 0) ∧
    (s.playing = true → s.hasTickSink = true → 2 ≤ s.audioTimeSignature →
      0 ≤ s.currentTick → s.currentTick < s.audioTimeSignature →
      (doneStep s).currentTick = (s.currentTick + 1) % s.audioTimeSignature) ∧
    (s.playing = true → s.hasTickSink = true → s.audioTimeSignature = 4 →
      s.currentTick = 0 → s.playCursor = 0 → s.beatLength = 22050 →
      (doneIter 4 s).currentTick = 0 ∧ (doneIter 4 s).playCursor = 88200) := by
  refine ⟨?_, ?_, ?_, ?_, ?_⟩
  · intro hp
    by_cases hs : s.hasTickSink
    · rw [doneStep_of_playing_sink s hp hs]
    · rw [doneStep_of_playing_nosink s hp (by simpa using hs)]
  · intro hp hs
    rw [doneStep_of_playing_nosink s hp hs]
  · intro hp hs hlt
    rw [doneStep_of_playing_sink s hp hs]
    simp [hlt]
  · intro hp hs h2 h0 hlt
    rw [doneStep_of_playing_sink s hp hs]
    have hns : ¬ (s.audioTimeSignature < 2) := not_lt.mpr h2
    simp only [if_neg hns]
    by_cases hw : s.currentTick + 1 ≥ s.audioTimeSignature
    · have heq : s.currentTick + 1 = s.audioTimeSignature := by omega
      simp only [if_pos hw]
      rw [heq, Int.emod_self]
    · simp only [if_neg hw]
      exact (Int.emod_eq_of_lt (by omega) (by omega)).symm
  · intro hp hs h4 ht hpc hbl
    have e1 : doneStep s = { s with playCursor := 22050, currentTick := 1 } := by
      rw [doneStep_of_playing_sink s hp hs, h4, ht, hpc, hbl]
      norm_num
    have e2 : doneStep { s with playCursor := 22050, currentTick := 1 } =
        { s with playCursor := 44100, currentTick := 2 } := by
      rw [doneStep_of_playing_sink { s with playCursor := 22050, currentTick := 1 } hp hs]
      simp only [h4, hbl]
      norm_num
    have e3 : doneStep { s with playCursor := 44100, currentTick := 2 } =
        { s with playCursor := 66150, currentTick := 3 } := by
      rw [doneStep_of_playing_sink { s with playCursor := 44100, currentTick := 2 } hp hs]
      simp only [h4, hbl]
      norm_num
    have e4 : doneStep { s with playCursor := 66150, currentTick := 3 } =
        { s with playCursor := 88200, currentTick := 0 } := by
      rw [doneStep_of_playing_sink { s with playCursor := 66150, currentTick := 3 } hp hs]
      simp only [h4, hbl]
      norm_num
    have hiter : doneIter 4 s = doneStep (doneStep (doneStep (doneStep s))) := rfl
    rw [hiter, e1, e2, e3, e4]
    exact ⟨rfl, rfl⟩

/-- A concrete freshly started engine for the claimed example scenario:
playing with a tick sink, time signature 4, beat index and play cursor 0,
and the beat length 22050 that bpm 120 at sample rate 44100 produces. -/
def scenarioState : MetroState :=
  { baseState with playing := true, hasTickSink := true, beatLength := 22050 }

/-- Witness for C3: the example scenario evaluated on `scenarioState`. -/
theorem c3_completion_handler_witness :
    (doneIter 4 scenarioState).currentTick = 0 ∧
    (doneIter 4 scenarioState).playCursor = 88200 :=
  (c3_completion_handler scenarioState).2.2.2.2 rfl rfl rfl rfl rfl rfl

/-- C3 counterexample: in a reachable playing state with beat index 1 and
no registered tick sink, a fragment completion leaves the beat index at 1,
whereas the claim demands the unconditional update to
`(1 + 1) mod 4 = 2`. -/
theorem c3_tick_update_needs_sink_counterexample :
    (enableTickCallback false (doneStep (play
        (enableTickCallback true baseState)))).playing = true ∧
    (enableTickCallback false (doneStep (play
        (enableTickCallback true baseState)))).hasTickSink = false ∧
    (enableTickCallback false (doneStep (play
        (enableTickCallback true baseState)))).currentTick = 1 ∧
    (enableTickCallback false (doneStep (play
        (enableTickCallback true baseState)))).audioTimeSignature = 4 ∧
    (doneStep (enableTickCallback false (doneStep (play
        (enableTickCallback true baseState))))).currentTick = 1 ∧
    ((1 : Int) + 1) % 4 = 2 ∧ (1 : Int) ≠ 2 := by
  decide

/-! ### Claim C4 -/

theorem c4_iter_invariant :
    ∀ (k : Nat) (s : MetroState), s.playing = true → s.hasTickSink = true →
      s.audioTimeSignature = 4 → 0 ≤ s.currentTick → s.currentTick < 4 →
      (doneIter k s).playing = true ∧ (doneIter k s).hasTickSink = true ∧
      (doneIter k s).audioTimeSignature = 4 ∧
      (doneIter k s).currentTick = (s.currentTick + k) % 4 := by
  intro k
  induction k with
  | zero =>
    intro s hp hs h4 h0 hlt
    refine ⟨hp, hs, h4, ?_⟩
    show s.currentTick = (s.currentTick + (0 : Nat)) % 4
    omega
  | succ m ih =>
    intro s hp hs h4 h0 hlt
    have hd := doneStep_of_playing_sink s hp hs
    rw [h4] at hd
    norm_num at hd
    have hp' : (doneStep s).playing = true := by rw [hd]; exact hp
    have hs' : (doneStep s).hasTickSink = true := by rw [hd]; exact hs
    have h4' : (doneStep s).audioTimeSignature = 4 := by rw [hd]
    have htv : (doneStep s).currentTick = (s.currentTick + 1) % 4 := by
      rw [hd]
      show (if s.currentTick + 1 ≥ 4 then 0 else s.currentTick + 1) =
        (s.currentTick + 1) % 4
      split <;> omega
    have h0' : 0 ≤ (doneStep s).currentTick := by rw [htv]; omega
    have hlt' : (doneStep s).currentTick < 4 := by rw [htv]; omega
    obtain ⟨a, b, c, d⟩ := ih (doneStep s) hp' hs' h4' h0' hlt'
    have hstep : doneIter (m + 1) s = doneIter m (doneStep s) := rfl
    rw [hstep]
    refine ⟨a, b, c, ?_⟩
    rw [d, htv]
    push_cast
    omega

/-- C4 as amended: with `beatsPerBar = 4` and a tick sink registered,
starting from the freshly started state (`CurrentBeatIndex = 0` after
`Play()`), the beat index after `k` completions is `k mod 4` and the
`(k+1)`-th notification delivers `(k+1) mod 4`; so the delivered sequence
is exactly `1,2,3,0,1,2,3,…` — consecutive indices advance by exactly one
modulo 4 (never skipped, never repeated out of order) — but the very
first notification carries index 1, not 0 (the handler increments before
notifying). -/
theorem c4_tick_sequence (s : MetroState) (hp : s.playing = true)
    (hs : s.hasTickSink = true) (h4 : s.audioTimeSignature = 4)
    (h0 : s.currentTick = 0) (k : Nat) :
    (doneIter k s).currentTick = (k : Int) % 4 ∧
    (onFragmentDone (doneIter k s)).2 = some (((k : Int) + 1) % 4) := by
  obtain ⟨a, b, c, d⟩ :=
    c4_iter_invariant k s hp hs h4 (by rw [h0]) (by rw [h0]; norm_num)
  rw [h0] at d
  norm_num at d
  refine ⟨d, ?_⟩
  rw [onFragmentDone_snd_sink _ a b, c, d]
  rw [if_neg (by norm_num : ¬ ((4 : Int) < 2))]
  congr 1
  split <;> omega

/-- Witness for C4 on `scenarioState` after 5 completions. -/
theorem c4_tick_sequence_witness :
    (doneIter 5 scenarioState).currentTick = (5 : Int) % 4 ∧
    (onFragmentDone (doneIter 5 scenarioState)).2 = some (((5 : Int) + 1) % 4) :=
  c4_tick_sequence scenarioState rfl rfl rfl rfl 5

/-- C4 counterexample: from the freshly started state (beat index 0 after
`Play()`, sink registered, signature 4) the very first notification
delivers beat index 1, not the claimed 0. -/
theorem c4_first_notification_counterexample :
    (play (enableTickCallback true baseState)).currentTick = 0 ∧
    (onFragmentDone (play (enableTickCallback true baseState))).2 = some 1 ∧
    (1 : Int) ≠ 0 := by
  decide

/-! ### Claim C5 -/

/-- C5 as amended: only `Pause()` resets `WriteCursor`, `PlayCursor` and
`CurrentBeatIndex` to 0 on the transition out of the playing state;
`Stop()` clears the running flag but leaves all three untouched.  After
`Pause()`, a subsequent `Play()` therefore slices its first fragment from
offset 0 of the freshly rebuilt bar buffer (the fragment being the
buffer's first `beatLength` samples whenever the beat length does not
exceed the buffer). -/
theorem c5_pause_resets_stop_does_not (s : MetroState) (h : s.playing = true) :
    (pause s).writeCursor = 0 ∧ (pause s).playCursor = 0 ∧
    (pause s).currentTick = 0 ∧ (pause s).playing = false ∧
    (stop s).writeCursor = s.writeCursor ∧ (stop s).playCursor = s.playCursor ∧
    (stop s).currentTick = s.currentTick ∧ (stop s).playing = false ∧
    (play (pause s)).writeCursor = 0 ∧
    (producerStep (play (pause s))).2 =
      some (sliceFragment (play (pause s)).audioBuffer
        (play (pause s)).beatLength 0) ∧
    (∀ (buf : List Int) (bl : Nat), bl ≤ buf.length →
      sliceFragment buf bl 0 = buf.take bl) := by
  have hpp : (pause s).playing = false := by simp [pause, h]
  have hpw : (pause s).writeCursor = 0 := by simp [pause, h]
  have hplay : play (pause s) =
      regenerate
        { (pause s) with playing := true, spawnCount := (pause s).spawnCount + 1 } := by
    simp [play, hpp]
  have hpw2 : (play (pause s)).writeCursor = 0 := by
    rw [hplay]
    show (pause s).writeCursor = 0
    exact hpw
  have hplaying2 : (play (pause s)).playing = true := by
    rw [hplay]; rfl
  refine ⟨hpw, by simp [pause, h], by simp [pause, h], hpp,
    by simp [stop, h], by simp [stop, h], by simp [stop, h], by simp [stop, h],
    hpw2, ?_, ?_⟩
  · simp only [producerStep, hplaying2, if_true, hpw2]
  · intro buf bl hle
    simp only [sliceFragment, Nat.zero_mod, Nat.sub_zero, List.drop_zero,
      min_eq_left hle, Nat.sub_self, List.take_zero, List.append_nil]

/-- Witness for C5 on the concrete playing state `scenarioState`. -/
theorem c5_pause_resets_stop_does_not_witness :
    scenarioState.playing = true ∧
    ((pause scenarioState).writeCursor = 0 ∧
     (pause scenarioState).playCursor = 0 ∧
     (pause scenarioState).currentTick = 0 ∧
     (pause scenarioState).playing = false ∧
     (stop scenarioState).writeCursor = scenarioState.writeCursor ∧
     (stop scenarioState).playCursor = scenarioState.playCursor ∧
     (stop scenarioState).currentTick = scenarioState.currentTick ∧
     (stop scenarioState).playing = false ∧
     (play (pause scenarioState)).writeCursor = 0 ∧
     (producerStep (play (pause scenarioState))).2 =
       some (sliceFragment (play (pause scenarioState)).audioBuffer
         (play (pause scenarioState)).beatLength 0) ∧
     (∀ (buf : List Int) (bl : Nat), bl ≤ buf.length →
       sliceFragment buf bl 0 = buf.take bl)) :=
  ⟨rfl, c5_pause_resets_stop_does_not scenarioState rfl⟩

/-- C5 counterexample: from the constructed engine, `Play()` followed by
one producer iteration leaves `writeCursor = 2`; `Stop()` from this
playing state returns with `writeCursor` still 2, not the claimed 0. -/
theorem c5_stop_keeps_cursor_counterexample :
    initMetronome [1, 0] [] 60 4 (1/2) 2 = Except.ok baseState ∧
    ((producerStep (play baseState)).1).playing = true ∧
    ((producerStep (play baseState)).1).writeCursor = 2 ∧
    (stop ((producerStep (play baseState)).1)).writeCursor = 2 ∧
    (2 : Nat) ≠ 0 := by
  refine ⟨by with_unfolding_all rfl, by decide, by decide, by decide, by decide⟩

/-! ### Claim C6 -/

theorem play_sig (s : MetroState) :
    (play s).audioTimeSignature = s.audioTimeSignature := by
  unfold play regenerate
  split <;> rfl

theorem play_tick (s : MetroState) : (play s).currentTick = s.currentTick := by
  unfold play regenerate
  split <;> rfl

theorem beatInv_congr (s s' : MetroState)
    (hsig : s'.audioTimeSignature = s.audioTimeSignature)
    (ht : s'.currentTick = s.currentTick) (h : beatInv s) : beatInv s' := by
  unfold beatInv at h ⊢
  rw [hsig, ht]
  exact h

theorem beatInv_of_tick_zero (s : MetroState) (h : s.currentTick = 0) :
    beatInv s :=
  ⟨fun h2 => ⟨by rw [h], by rw [h]; omega⟩, fun _ => h⟩

theorem setAudioFile_fields (mb ab : List Nat) (s : MetroState) :
    ((setAudioFile mb ab s).1.audioTimeSignature = s.audioTimeSignature ∧
     (setAudioFile mb ab s).1.currentTick = s.currentTick) ∨
    ((setAudioFile mb ab s).1.audioTimeSignature = s.audioTimeSignature ∧
     (setAudioFile mb ab s).1.currentTick = 0) := by
  by_cases hboth : mb = [] ∧ ab = []
  · left
    simp [setAudioFile, hboth]
  · have hs1sig : (if s.playing then pause s else s).audioTimeSignature =
        s.audioTimeSignature := by
      by_cases hp : s.playing <;> simp [pause, hp]
    have hs1tick : (if s.playing then pause s else s).currentTick = s.currentTick ∨
        (if s.playing then pause s else s).currentTick = 0 := by
      by_cases hp : s.playing
      · right; simp [pause, hp]
      · left; simp [hp]
    unfold setAudioFile
    rw [if_neg hboth]
    simp only []
    split
    case _ e heq =>
      rcases hs1tick with ht | ht
      · left; exact ⟨hs1sig, ht⟩
      · right; exact ⟨hs1sig, ht⟩
    case _ s2 heq =>
      have hs2 : s2.audioTimeSignature = s.audioTimeSignature ∧
          (s2.currentTick = s.currentTick ∨ s2.currentTick = 0) := by
        by_cases hmb : mb = []
        · rw [if_pos hmb] at heq
          injection heq with heq2
          rw [← heq2]
          exact ⟨hs1sig, hs1tick⟩
        · rw [if_neg hmb] at heq
          rcases hX : byteArrayToShortArray mb with e | m
          · rw [hX] at heq
            simp [Except.map] at heq
          · rw [hX] at heq
            simp only [Except.map] at heq
            injection heq with heq2
            rw [← heq2]
            exact ⟨hs1sig, hs1tick⟩
      split
      case _ e2 heq2 =>
        rcases hs2.2 with ht | ht
        · left; exact ⟨hs2.1, ht⟩
        · right; exact ⟨hs2.1, ht⟩
      case _ s3 heq3 =>
        have hs3 : s3.audioTimeSignature = s.audioTimeSignature ∧
            (s3.currentTick = s.currentTick ∨ s3.currentTick = 0) := by
          by_cases hab : ab = []
          · rw [if_pos hab] at heq3
            injection heq3 with heq4
            rw [← heq4]
            exact hs2
          · rw [if_neg hab] at heq3
            rcases hX : byteArrayToShortArray ab with e | m
            · rw [hX] at heq3
              simp [Except.map] at heq3
            · rw [hX] at heq3
              simp only [Except.map] at heq3
              injection heq3 with heq4
              rw [← heq4]
              exact hs2
        by_cases hp : s.playing
        · rw [if_pos hp]
          rcases hs3.2 with ht | ht
          · left; exact ⟨by rw [play_sig]; exact hs3.1, by rw [play_tick]; exact ht⟩
          · right; exact ⟨by rw [play_sig]; exact hs3.1, by rw [play_tick]; exact ht⟩
        · rw [if_neg hp]
          rcases hs3.2 with ht | ht
          · left; exact ⟨hs3.1, ht⟩
          · right; exact ⟨hs3.1, ht⟩

/-- C6 as amended: the beat-index invariant (index in `[0, beatsPerBar)`
for a signature `≥ 2`, index 0 for a signature `< 2`) is preserved by
construction, `Play`, `Pause`, `Stop`, fragment completions, `SetBPM`,
`SetVolume`, tick-sink (un)registration and `SetAudioFile`; it is
preserved by `SetTimeSignature` when the engine is playing (the
pause/resume discipline zeroes the index) or when the stored index is 0 —
but not in general: `SetTimeSignature` called while stopped with a stale
nonzero index can leave the index out of range (see the counterexample),
because `Stop()` does not reset it. -/
theorem c6_beat_index_invariant_ops (s : MetroState) (hinv : beatInv s) :
    beatInv (play s) ∧ beatInv (pause s) ∧ beatInv (stop s) ∧
    beatInv (doneStep s) ∧
    (∀ b, beatInv (setBPM b s)) ∧
    (∀ v, beatInv ((setVolume v s).1)) ∧
    (∀ b, beatInv (enableTickCallback b s)) ∧
    (∀ mb ab, beatInv ((setAudioFile mb ab s).1)) ∧
    (∀ n, s.playing = true ∨ s.currentTick = 0 →
      beatInv (setTimeSignature n s)) := by
  refine ⟨?_, ?_, ?_, ?_, ?_, ?_, ?_, ?_, ?_⟩
  · exact beatInv_congr s _ (play_sig s) (play_tick s) hinv
  · by_cases hp : s.playing
    · exact beatInv_of_tick_zero _ (by simp [pause, hp])
    · simpa [pause, hp] using hinv
  · by_cases hp : s.playing
    · exact beatInv_congr s _ (by simp [stop, hp]) (by simp [stop, hp]) hinv
    · simpa [stop, hp] using hinv
  · by_cases hp : s.playing
    · by_cases hsink : s.hasTickSink
      · rw [doneStep_of_playing_sink s hp hsink]
        obtain ⟨hA, hB⟩ := hinv
        constructor
        · intro h2
          have h3 := hA h2
          show 0 ≤ (if s.audioTimeSignature < 2 then 0
              else if s.currentTick + 1 ≥ s.audioTimeSignature then 0
              else s.currentTick + 1) ∧
            (if s.audioTimeSignature < 2 then 0
              else if s.currentTick + 1 ≥ s.audioTimeSignature then 0
              else s.currentTick + 1) < s.audioTimeSignature
          split_ifs <;> omega
        · intro hlt
          show (if s.audioTimeSignature < 2 then 0
              else if s.currentTick + 1 ≥ s.audioTimeSignature then 0
              else s.currentTick + 1) = 0
          split_ifs <;> omega
      · rw [doneStep_of_playing_nosink s hp (by simpa using hsink)]
        exact beatInv_congr s _ rfl rfl hinv
    · have : doneStep s = s := by simp [doneStep, onFragmentDone, hp]
      rw [this]
      exact hinv
  · intro b
    by_cases hb : s.audioBpm = b
    · simpa [setBPM, hb] using hinv
    · by_cases hp : s.playing
      · have heq : setBPM b s = play { (pause s) with audioBpm := b } := by
          simp [setBPM, hb, hp]
        rw [heq]
        apply beatInv_of_tick_zero
        rw [play_tick]
        show (pause s).currentTick = 0
        simp [pause, hp]
      · have heq : setBPM b s = { s with audioBpm := b } := by
          simp [setBPM, hb, hp]
        rw [heq]
        exact beatInv_congr s _ rfl rfl hinv
  · intro v
    by_cases hv : v < 0 ∨ 1 < v
    · simpa [setVolume, hv] using hinv
    · have heq : (setVolume v s).1 =
          { s with audioVolume := v, deviceVolume := deviceVolumeWord v } := by
        simp [setVolume, hv]
      rw [heq]
      exact beatInv_congr s _ rfl rfl hinv
  · intro b
    exact beatInv_congr s _ rfl rfl hinv
  · intro mb ab
    rcases setAudioFile_fields mb ab s with ⟨hsig, ht⟩ | ⟨hsig, ht⟩
    · exact beatInv_congr s _ hsig ht hinv
    · exact beatInv_of_tick_zero _ ht
  · intro n hcond
    by_cases heq : s.audioTimeSignature = n
    · simpa [setTimeSignature, heq] using hinv
    · by_cases hp : s.playing
      · have h1 : setTimeSignature n s =
            play { (pause s) with audioTimeSignature := n } := by
          simp [setTimeSignature, heq, hp]
        rw [h1]
        apply beatInv_of_tick_zero
        rw [play_tick]
        show (pause s).currentTick = 0
        simp [pause, hp]
      · have ht0 : s.currentTick = 0 := by
          rcases hcond with hc | hc
          · exact absurd hc hp
          · exact hc
        have h1 : setTimeSignature n s = { s with audioTimeSignature := n } := by
          simp [setTimeSignature, heq, hp]
        rw [h1]
        exact beatInv_of_tick_zero _ ht0

/-- Witness for C6 on the constructed engine state. -/
theorem c6_beat_index_invariant_ops_witness :
    beatInv baseState ∧ beatInv (play baseState) ∧
    beatInv (setTimeSignature 1 baseState) := by
  have h := c6_beat_index_invariant_ops baseState (by decide)
  exact ⟨by decide, h.1, h.2.2.2.2.2.2.2.2 1 (Or.inr rfl)⟩

/-- C6 counterexample: construct, register a sink, `Play()`, let three
fragments complete (beat index 3), `Stop()` (which does not reset the
index), then `SetTimeSignature(2)` while stopped: the reached state has
time signature 2 with beat index 3, violating the claimed invariant. -/
theorem c6_invariant_counterexample :
    initMetronome [1, 0] [] 60 4 (1/2) 2 = Except.ok baseState ∧
    (setTimeSignature 2 (stop (doneStep (doneStep (doneStep (play
      (enableTickCallback true baseState))))))).audioTimeSignature = 2 ∧
    (setTimeSignature 2 (stop (doneStep (doneStep (doneStep (play
      (enableTickCallback true baseState))))))).currentTick = 3 ∧
    ¬ beatInv (setTimeSignature 2 (stop (doneStep (doneStep (doneStep (play
      (enableTickCallback true baseState))))))) := by
  refine ⟨by with_unfolding_all rfl, by decide, by decide, by decide⟩

/-! ### Claim C9 -/

theorem shortArrayToByteArray_length (samples : List Int) :
    (shortArrayToByteArray samples).length = 2 * samples.length := by
  unfold shortArrayToByteArray
  rw [flatten_const_length 2 _ (by
    intro l hl
    simp only [List.mem_map] at hl
    obtain ⟨x, _, rfl⟩ := hl
    rfl)]
  simp [Nat.mul_comm]

theorem shortArrayToByteArray_getD (samples : List Int) (i : Nat)
    (hi : i < samples.length) :
    (shortArrayToByteArray samples).getD (2 * i) 0 =
      ((samples.getD i 0) % 65536).toNat % 256 ∧
    (shortArrayToByteArray samples).getD (2 * i + 1) 0 =
      ((samples.getD i 0) % 65536).toNat / 256 := by
  have hall : ∀ l ∈ samples.map fun x =>
      [(x % 65536).toNat % 256, (x % 65536).toNat / 256], l.length = 2 := by
    intro l hl
    simp only [List.mem_map] at hl
    obtain ⟨x, _, rfl⟩ := hl
    rfl
  have hmap : (samples.map fun x =>
      [(x % 65536).toNat % 256, (x % 65536).toNat / 256]).getD i [] =
      [((samples.getD i 0) % 65536).toNat % 256,
       ((samples.getD i 0) % 65536).toNat / 256] :=
    getD_map_lt _ [] 0 samples i hi
  have hilen : i < (samples.map fun x =>
      [(x % 65536).toNat % 256, (x % 65536).toNat / 256]).length := by
    simpa using hi
  constructor
  · have h := flatten_const_getD 2 0 _ hall i 0 hilen (by omega)
    rw [hmap] at h
    have hidx : i * 2 + 0 = 2 * i := by ring
    rw [hidx] at h
    exact h
  · have h := flatten_const_getD 2 0 _ hall i 1 hilen (by omega)
    rw [hmap] at h
    have hidx : i * 2 + 1 = 2 * i + 1 := by ring
    rw [hidx] at h
    exact h

theorem toInt16_round (x : Int) (h1 : -32768 ≤ x) (h2 : x < 32768) :
    toInt16 ((x % 65536).toNat % 256 + 256 * ((x % 65536).toNat / 256)) = x := by
  rw [Nat.mod_add_div ((x % 65536).toNat) 256]
  unfold toInt16
  have hlt : x % 65536 < 65536 := Int.emod_lt_of_pos x (by norm_num)
  have hge : 0 ≤ x % 65536 := Int.emod_nonneg x (by norm_num)
  split_ifs with hc <;> omega

theorem byteArrayToShortArray_ok (bytes : List Nat) (hne : bytes ≠ [])
    (hev : bytes.length % 2 = 0) :
    byteArrayToShortArray bytes = .ok ((List.range (bytes.length / 2)).map fun i =>
      toInt16 (bytes.getD (2 * i) 0 + 256 * bytes.getD (2 * i + 1) 0)) := by
  unfold byteArrayToShortArray
  rw [if_neg (by simp [hne, hev])]

/-- C9 as amended: for every non-empty even-length byte input the
conversion succeeds, the result has `length/2` samples with sample `i`
the little-endian (two's complement) combination of bytes `2i` and
`2i+1`, and the byte-to-short conversion round-trips: serializing any
non-empty sequence of 16-bit sample values back to little-endian bytes
and loading it reconstructs the original sequence.  (The empty byte
array, although of even length, is rejected — see the counterexample.) -/
theorem c9_byte_short_roundtrip :
    (∀ bytes : List Nat, bytes ≠ [] → bytes.length % 2 = 0 →
      ∃ l, byteArrayToShortArray bytes = .ok l ∧
        l.length = bytes.length / 2 ∧
        ∀ i, i < bytes.length / 2 →
          l.getD i 0 = toInt16 (bytes.getD (2 * i) 0 + 256 * bytes.getD (2 * i + 1) 0)) ∧
    (∀ samples : List Int, samples ≠ [] →
      (∀ x ∈ samples, -32768 ≤ x ∧ x < 32768) →
      byteArrayToShortArray (shortArrayToByteArray samples) = .ok samples) := by
  constructor
  · intro bytes hne hev
    refine ⟨_, byteArrayToShortArray_ok bytes hne hev, ?_, ?_⟩
    · simp
    · intro i hi
      exact getD_range_map _ _ _ i hi
  · intro samples hne hrange
    have hlen := shortArrayToByteArray_length samples
    have hne2 : shortArrayToByteArray samples ≠ [] := by
      intro hnil
      have h0 : (shortArrayToByteArray samples).length = 0 := by rw [hnil]; rfl
      rw [hlen] at h0
      exact hne (List.length_eq_zero.mp (by omega))
    have hev : (shortArrayToByteArray samples).length % 2 = 0 := by
      rw [hlen]; omega
    rw [byteArrayToShortArray_ok _ hne2 hev]
    congr 1
    apply list_eq_of_getD (0 : Int)
    · simp only [List.length_map, List.length_range, hlen]
      omega
    · intro i hi
      simp only [List.length_map, List.length_range, hlen] at hi
      have hin : i < samples.length := by omega
      rw [getD_range_map _ _ _ i (by omega)]
      obtain ⟨he, ho⟩ := shortArrayToByteArray_getD samples i hin
      rw [he, ho]
      have hx := hrange (samples.getD i 0) (getD_mem_of_lt samples 0 i hin)
      exact toInt16_round (samples.getD i 0) hx.1 hx.2

/-- Witness for C9: the bytes `[1, 2, 3, 4]` load to two samples, and
serializing the samples `[5, -3]` and loading them back reconstructs
`[5, -3]`. -/
theorem c9_byte_short_roundtrip_witness :
    (∃ l, byteArrayToShortArray [1, 2, 3, 4] = .ok l ∧
      l.length = 2 ∧
      ∀ i, i < 2 →
        l.getD i 0 = toInt16 (List.getD [1, 2, 3, 4] (2 * i) 0 +
          256 * List.getD [1, 2, 3, 4] (2 * i + 1) 0)) ∧
    byteArrayToShortArray (shortArrayToByteArray [5, -3]) = .ok [5, -3] :=
  ⟨c9_byte_short_roundtrip.1 [1, 2, 3, 4] (by decide) (by decide),
   c9_byte_short_roundtrip.2 [5, -3] (by decide) (by decide)⟩

/-- C9 counterexample: the empty byte array has even length (0), yet the
conversion rejects it with the invalid-format error instead of returning
the empty sample sequence, so the claim's "any even-length byte input" is
too broad. -/
theorem c9_empty_input_counterexample :
    ([] : List Nat).length % 2 = 0 ∧
    byteArrayToShortArray ([] : List Nat) =
      .error "Invalid byte array length for PCM_16BIT" :=
  ⟨rfl, rfl⟩

end Metronome
